import Mathlib

/-!
Verification development for the lo-fi generative music engine
(src/utils/audioEngine.ts).  The TypeScript source is shallowly embedded:
pure numeric code becomes Lean functions on ℚ / ℤ / ℝ, the stateful
engine object becomes explicit state records with state-passing
functions, and the stateful PRNG closures become streams indexed by the
number of calls made so far.  JavaScript number arithmetic on the values
appearing here is exact (all integers stay far below 2^53), so ℚ and ℤ
are faithful; frequency computations use powers and base-2 logarithms of
reals and are embedded with ℝ.  The JS remainder operator `a % b` keeps
the sign of the dividend, which is Int.tmod.
-/

namespace PiedPiper

/-! ### Deterministic PRNG (audioEngine.ts lines 181-187)

private seededRandom(seedIncrement: number = 0): () => number {
  let value = this.currentSeed + seedIncrement;
  return function() {
    value = (value * 9301 + 49297) % 233280;
    return value / 233280.0;
  };
}

A stream returned by seededRandom is modelled by its initial internal
state (seed + seedIncrement) together with the sequence of states after
each call; the n-th call (counting from 0) returns the (n+1)-st state
divided by 233280. -/

/-- One update of the linear congruential generator: the JS statement
value = (value * 9301 + 49297) % 233280, with the JS sign-of-dividend
remainder (Int.tmod). -/
def lcgNext (value : ℤ) : ℤ := (value * 9301 + 49297).tmod 233280

/-- Internal state of one PRNG stream after n calls, starting from init. -/
def lcgState (init : ℤ) : ℕ → ℤ
  | 0 => init
  | n + 1 => lcgNext (lcgState init n)

/-- Value returned by the (n+1)-st call of a stream with initial state init. -/
def lcgOut (init : ℤ) (n : ℕ) : ℚ := ((lcgState init (n + 1) : ℤ) : ℚ) / 233280

/-- The stream produced by this.seededRandom(seedIncrement) when
this.currentSeed = seed: internal state starts at seed + seedIncrement. -/
def seededRandom (seed seedIncrement : ℤ) (n : ℕ) : ℚ :=
  lcgOut (seed + seedIncrement) n

/-! ### Drum pattern generation (generateNextBar, lines 1136-1155)

A drum pattern is three 16-element velocity arrays.  JS array element
assignment pattern[idx] = v with a possibly negative idx does not change
the elements 0..15 (it creates a stray property), modelled by jsSet; a
JS array read list[idx] with idx in range returns the element (out of
range would give undefined; every use below is guarded to the in-range
case by the hypotheses of the theorems, jsGet defaults to 0). -/

structure DrumPattern where
  kick : List ℚ
  snare : List ℚ
  hihat : List ℚ
deriving DecidableEq

/-- JS array element write at an integer index. -/
def jsSet (l : List ℚ) (i : ℤ) (v : ℚ) : List ℚ :=
  if 0 ≤ i then l.set i.toNat v else l

/-- JS array element read at an integer index (0 outside the list). -/
def jsGet (l : List ℤ) (i : ℤ) : ℤ :=
  if 0 ≤ i then l.getD i.toNat 0 else 0

/-- Kick track of the bar: kick[0]=0.9; 70% kick[8]=0.8; 20%
kick[4 + floor(rng()*2)*4]=0.7; 35% a syncopated 0.6.  Returns the track
and the next unused stream index. -/
def genKick (s : ℕ → ℚ) (k0 : ℕ) : List ℚ × ℕ :=
  let kick1 := jsSet (List.replicate 16 0) 0 (9/10)
  let kick2 := if s k0 < 7/10 then jsSet kick1 8 (8/10) else kick1
  let k1 := k0 + 1
  let c24 := s k1 < 1/5
  let kick3 := if c24 then jsSet kick2 (4 + ⌊s (k1+1) * 2⌋ * 4) (7/10) else kick2
  let k2 := if c24 then k1 + 2 else k1 + 1
  let cSync := s k2 < 7/20
  let kick4 := if cSync then jsSet kick3 (jsGet [2,3,6,7,10,11,13,14] ⌊s (k2+1) * 8⌋) (6/10) else kick3
  let k3 := if cSync then k2 + 2 else k2 + 1
  (kick4, k3)

/-- Snare track: strong backbeat at steps 4 and 12, 15% a ghost hit 0.5
at step 7 or 15. -/
def genSnare (s : ℕ → ℚ) (k0 : ℕ) : List ℚ × ℕ :=
  let snare1 := jsSet (jsSet (List.replicate 16 0) 4 (9/10)) 12 (9/10)
  let cGhost := s k0 < 3/20
  let snare2 := if cGhost then jsSet snare1 (jsGet [7,15] ⌊s (k0+1) * 2⌋) (1/2) else snare1
  let k1 := if cGhost then k0 + 2 else k0 + 1
  (snare2, k1)

/-- The for (i = 0; i < 16; i += 2) hihat loop: 90% per even step,
accent 0.8 on quarter-note steps, 0.6 otherwise. -/
def hihatLoop (s : ℕ → ℚ) : List ℤ → List ℚ × ℕ → List ℚ × ℕ
  | [], acc => acc
  | i :: is, acc =>
      hihatLoop s is
        (if s acc.2 < 9/10
         then (jsSet acc.1 i (if i.tmod 4 = 0 then 8/10 else 6/10), acc.2 + 1)
         else (acc.1, acc.2 + 1))

/-- The inner for (i = 0; i < 3; i++) loop adding up to three softer
16th-note hihats at random steps (argument counts remaining iterations). -/
def hihatExtra (s : ℕ → ℚ) : ℕ → List ℚ × ℕ → List ℚ × ℕ
  | 0, acc => acc
  | n + 1, acc =>
      hihatExtra s n
        (if s acc.2 < 2/5
         then (jsSet acc.1 ⌊s (acc.2+1) * 16⌋ (1/2), acc.2 + 2)
         else (acc.1, acc.2 + 1))

/-- Hihat track: the even-step loop, then with probability 50% up to
three extra 16th hits. -/
def genHihat (s : ℕ → ℚ) (k0 : ℕ) : List ℚ × ℕ :=
  let hh := hihatLoop s [0,2,4,6,8,10,12,14] (List.replicate 16 0, k0)
  let cSix := s hh.2 < 1/2
  let k1 := hh.2 + 1
  if cSix then hihatExtra s 3 (hh.1, k1) else (hh.1, k1)

/-- Full drum pattern of one bar (source lines 1138-1155, consuming
draws from the bar stream in source order: kick, snare, hihat). -/
def genDrums (s : ℕ → ℚ) (k0 : ℕ) : DrumPattern × ℕ :=
  let kick := genKick s k0
  let snare := genSnare s kick.2
  let hihat := genHihat s snare.2
  (⟨kick.1, snare.1, hihat.1⟩, hihat.2)

/-- A well-formed velocity track: 16 steps, all velocities in [0,1]. -/
def velOk (l : List ℚ) : Prop := l.length = 16 ∧ ∀ v ∈ l, 0 ≤ v ∧ v ≤ 1

/-- The drum-pattern invariant of claim C7: three 16-element velocity
tracks with entries in [0,1], kick velocity 0.9 at step 0 and snare
velocity 0.9 at steps 4 and 12. -/
def DrumOk (p : DrumPattern) : Prop :=
  velOk p.kick ∧ velOk p.snare ∧ velOk p.hihat ∧
    p.kick.getD 0 0 = 9/10 ∧ p.snare.getD 4 0 = 9/10 ∧ p.snare.getD 12 0 = 9/10

/-! ### Notes and frequency helpers -/

/-- OscillatorType values used by the engine. -/
inductive OscType
  | sine
  | square
  | sawtooth
  | triangle
deriving DecidableEq

/-- The instrument tag of the Note type (audioEngine.ts line 13). -/
inductive Instrument
  | pad
  | bass
  | lead
  | arp
  | atmosphere
  | drum
  | electricPiano
  | flute
  | shaker
  | pluck
deriving DecidableEq

/-- The Note descriptor (audioEngine.ts lines 3-19).  Optional fields of
the TS type are Option; frequency is a real number (it is built from
powers of 2), every other numeric field is an exact rational. -/
structure Note where
  frequency : ℝ
  duration : ℚ
  velocity : Option ℚ := none
  type : Option OscType := none
  attack : Option ℚ := none
  decay : Option ℚ := none
  sustain : Option ℚ := none
  release : Option ℚ := none
  instrument : Option Instrument := none
  targetBeatInBar : Option ℤ := none
  arpIndex : Option ℤ := none
  target16thStep : Option ℤ := none

/-- MIDI number (real-valued, not rounded) of a frequency:
69 + 12 * Math.log2(freq / 440). -/
noncomputable def midiOfFreq (f : ℝ) : ℝ := 69 + 12 * Real.logb 2 (f / 440)

/-- Frequency of a MIDI note: 440 * Math.pow(2, (midi - 69) / 12). -/
noncomputable def freqOfMidi (m : ℤ) : ℝ := 440 * (2 : ℝ) ^ (((m : ℝ) - 69) / 12)

/-- Frequency ratio of a semitone offset: Math.pow(2, semitones / 12)
(audioEngine.ts line 28). -/
noncomputable def semitoneFactor (semitones : ℤ) : ℝ :=
  (2 : ℝ) ^ (((semitones : ℝ)) / 12)

/-- The while (x > hi and x - 12 >= lo) x -= 12 octave-folding loop.
The source loop always terminates (x moves 12 toward the range each
iteration); it is modelled with an explicit iteration budget, which is
never exhausted for the MIDI values arising in the engine. -/
def foldDownInto (lo hi : ℤ) : ℕ → ℤ → ℤ
  | 0, x => x
  | n + 1, x => if hi < x ∧ lo ≤ x - 12 then foldDownInto lo hi n (x - 12) else x

/-- The while (x < lo and x + 12 <= hi) x += 12 octave-folding loop,
with the same iteration budget convention as foldDownInto. -/
def foldUpInto (lo hi : ℤ) : ℕ → ℤ → ℤ
  | 0, x => x
  | n + 1, x => if x < lo ∧ x + 12 ≤ hi then foldUpInto lo hi n (x + 12) else x

/-- Fold a MIDI note into the drone range 24..48 the way the atmosphere
block does: first the downward loop, then the upward loop. -/
def foldIntoDroneRange (x : ℤ) : ℤ :=
  foldUpInto 24 48 100 (foldDownInto 24 48 100 x)

/-! ### Atmosphere drone selection (generateNextBar, lines 1056-1134)

The block reads this.barCount, the current chord (root frequency and
voicing intervals), the key root, this.currentScaleNotes and
this.currentAtmosphereNote.  It is embedded as a function of those
inputs with the two real-to-MIDI roundings
(Math.round(69 + 12 * Math.log2(freq / 440)) for the chord root and the
key root) passed in already rounded, so that the function stays exactly
evaluable; the composer embedding below passes the rounded values.
Drone notes are re-chosen when barCount % (2 + floor(rng()*3)) === 0 or
no drone exists; JS evaluates the modulus draw first, and 0 % 0 is NaN
(so the left disjunct is false when the random modulus is 0, which can
only happen for out-of-range draws). -/

noncomputable def atmoSection (s : ℕ → ℚ) (k : ℕ) (barCount : ℕ)
    (chordRootActualMidi : ℤ) (chordIntervals : List ℕ) (keyRootMidi : ℤ)
    (currentScaleNotes : List ℤ) (prevAtmo : Option Note) : Option Note × ℕ :=
  let m : ℤ := 2 + ⌊s k * 3⌋
  let rechoose : Bool :=
    (if m = 0 then false else (barCount : ℤ).tmod m == 0) || prevAtmo.isNone
  let k0 := k + 1
  if rechoose then
    let chordThirdInterval := chordIntervals.find? (fun i => i == 3 || i == 4)
    let chordFifthInterval := chordIntervals.find? (fun i => i == 7)
    let droneRootMidi := foldIntoDroneRange chordRootActualMidi
    let p1 : List ℤ :=
      if 24 ≤ droneRootMidi ∧ droneRootMidi ≤ 48 ∧ currentScaleNotes.contains droneRootMidi
      then [droneRootMidi] else []
    let p2 : List ℤ :=
      match chordFifthInterval with
      | some f =>
          let x := foldIntoDroneRange (chordRootActualMidi + (f : ℤ))
          if 24 ≤ x ∧ x ≤ 48 ∧ currentScaleNotes.contains x ∧ ¬ p1.contains x
          then p1 ++ [x] else p1
      | none => p1
    let p3 : List ℤ :=
      match chordThirdInterval with
      | some t =>
          let x := foldIntoDroneRange (chordRootActualMidi + (t : ℤ))
          if 24 ≤ x ∧ x ≤ 48 ∧ currentScaleNotes.contains x ∧ ¬ p2.contains x
          then p2 ++ [x] else p2
      | none => p2
    let p4 : List ℤ :=
      let x := foldIntoDroneRange keyRootMidi
      if 24 ≤ x ∧ x ≤ 48 ∧ currentScaleNotes.contains x ∧ ¬ p3.contains x
      then p3 ++ [x] else p3
    let sel : Option ℤ × ℕ :=
      if p4 ≠ [] then (some (p4.headD 0), k0)
      else
        let avail := currentScaleNotes.filter (fun n => 24 ≤ n ∧ n ≤ 48)
        if avail ≠ [] then (some (jsGet avail ⌊s k0 * (avail.length : ℚ)⌋), k0 + 1)
        else (none, k0)
    match sel.1 with
    | some midi =>
        (some { frequency := freqOfMidi midi
                duration := (7/2 + s sel.2 * 4) * 4
                velocity := some (3/100 + s (sel.2+1) * (1/50))
                type := some OscType.triangle
                attack := some (5 + s (sel.2+2) * 3)
                decay := some 2
                sustain := some (4/5)
                release := some (6 + s (sel.2+3) * 4)
                instrument := some Instrument.atmosphere },
         sel.2 + 4)
    | none => (none, sel.2)
  else
    (prevAtmo, k0)

/-! ### Voice leading for pads (audioEngine.ts lines 692-719)

The source walks the previous bar frequencies, greedily matching each to
the not-yet-used target frequency of minimal semitone distance
(Math.abs(Math.log2(prev / target) * 12), first index wins ties), then
appends the unmatched targets and sorts ascending.  The embedding is
generic in the element type and in the distance function (the source
distance is real-valued); the inner index-scanning loop is expressed as
a structural recursion that picks the leftmost minimal-distance element
and returns the remaining list with that element spliced out, which is
exactly what the splice(closestIndex, 1) loop does. -/

/-- Pick the leftmost element of t :: ts minimising d, returning it and
the rest of the list in order. -/
def pickClosest {α β : Type} [LinearOrder β] (d : α → β) : α → List α → α × List α
  | t, [] => (t, [])
  | t, u :: us =>
      let r := pickClosest d u us
      if d t ≤ d r.1 then (t, u :: us) else (r.1, t :: r.2)

/-- The for (const prevFreq of prevChordFreqs) loop of voiceLeadPads:
consume one closest available target per previous frequency (stopping
when targets run out), then append the remaining targets. -/
def voiceLeadLoop {α β : Type} [LinearOrder β] (d : α → α → β) :
    List α → List α → List α
  | [], avail => avail
  | _ :: _, [] => []
  | p :: ps, t :: ts =>
      let r := pickClosest (d p) t ts
      r.1 :: voiceLeadLoop d ps r.2

/-- voiceLeadPads(targetChordFreqs, prevChordFreqs): identity on the
target list when either list is empty, otherwise the greedy matching
followed by an ascending sort. -/
def voiceLeadPads {α β : Type} [LinearOrder α] [LinearOrder β] (d : α → α → β)
    (targetChordFreqs prevChordFreqs : List α) : List α :=
  if prevChordFreqs.length = 0 ∨ targetChordFreqs.length = 0 then targetChordFreqs
  else List.insertionSort (fun a b => a ≤ b)
        (voiceLeadLoop d prevChordFreqs targetChordFreqs)

/-! ### Music theory tables (audioEngine.ts lines 82-119) -/

/-- The static chord-progression templates (scale-degree sequences). -/
def progressionTemplates : List (List ℕ) :=
  [[0,5,3,4], [0,3,1,4], [0,5,1,4], [0,1,3,4], [5,1,3,0], [0,3,0,4],
   [1,4,0,0], [0,1,4,5], [0,4], [0,3], [0,5,1,3,0,5,1,4]]

/-- Chord voicings: semitone offsets from the chord root. -/
def triadMaj : List ℕ := [0, 4, 7]
def triadMin : List ℕ := [0, 3, 7]
def maj7 : List ℕ := [0, 4, 7, 11]
def min7 : List ℕ := [0, 3, 7, 10]
def dom7 : List ℕ := [0, 4, 7, 10]
def maj6 : List ℕ := [0, 4, 7, 9]
def min6 : List ℕ := [0, 3, 7, 9]
def maj9 : List ℕ := [0, 4, 7, 11, 14]
def min9 : List ℕ := [0, 3, 7, 10, 14]
def dom9 : List ℕ := [0, 4, 7, 10, 14]
def add9 : List ℕ := [0, 4, 7, 14]
def minAdd9 : List ℕ := [0, 3, 7, 14]
def sus4 : List ℕ := [0, 5, 7]
def dom7sus4 : List ℕ := [0, 5, 7, 10]
def maj7no5 : List ℕ := [0, 4, 11]
def min7no5 : List ℕ := [0, 3, 10]

/-- JS array read at an integer index with an explicit default (the
default is only reached for out-of-range indices, where JS would give
undefined; every evaluated use stays in range). -/
def jsGetD {α : Type} (l : List α) (i : ℤ) (dflt : α) : α :=
  if 0 ≤ i then l.getD i.toNat dflt else dflt

/-- Diatonic chord quality. -/
inductive ChordQuality
  | maj
  | min
  | dom
deriving DecidableEq

/-- getChordQualityAndVoicing (lines 556-599): quality from the scale
degree (I/IV major, ii/iii/vi minor, V dominant, others minor), then a
30% lean to simpler voicings and a uniform pick from the corresponding
voicing list.  Two draws are consumed on every path.  The scale argument
is unused, as in the source. -/
def getChordQualityAndVoicing (scaleDegree : ℕ) (scale : List ℕ)
    (s : ℕ → ℚ) (k : ℕ) : List ℕ × ℕ :=
  let quality : ChordQuality :=
    if scaleDegree = 0 ∨ scaleDegree = 3 then ChordQuality.maj
    else if scaleDegree = 1 ∨ scaleDegree = 2 ∨ scaleDegree = 5 then ChordQuality.min
    else if scaleDegree = 4 then ChordQuality.dom
    else ChordQuality.min
  let preferSimpleVoicings := s k < 3/10
  let d := s (k + 1)
  let voicing :=
    match quality with
    | ChordQuality.maj =>
        if preferSimpleVoicings then jsGetD [triadMaj, maj6, add9, maj7no5] ⌊d * 4⌋ []
        else jsGetD [maj7, maj9, maj6, add9] ⌊d * 4⌋ []
    | ChordQuality.min =>
        if preferSimpleVoicings then jsGetD [triadMin, min6, minAdd9, min7no5] ⌊d * 4⌋ []
        else jsGetD [min7, min9, min6, minAdd9] ⌊d * 4⌋ []
    | ChordQuality.dom => jsGetD [dom7, dom9, dom7sus4] ⌊d * 3⌋ []
  (voicing, k + 2)

/-- getNotesInScale (lines 601-628) with the default numOctavesToCover
of 4: all rounded MIDI numbers of the scale intervals over octave
offsets -2..2 around the real-valued root MIDI, kept inside 24..96,
deduplicated and sorted ascending (the JS Set keeps first insertions,
the extra root-octave pass adds nothing new, and the result is sorted). -/
noncomputable def getNotesInScale (rootNoteFrequency : ℝ) (scaleIntervals : List ℕ) :
    List ℤ :=
  let rootMidi : ℝ := 69 + 12 * Real.logb 2 (rootNoteFrequency / 440)
  let fromOct : ℤ → List ℤ := fun oct =>
    scaleIntervals.filterMap (fun i =>
      let note := round (rootMidi + (i : ℝ) + 12 * (oct : ℝ))
      if 24 ≤ note ∧ note ≤ 96 then some note else none)
  let collected := (([-2,-1,0,1,2] : List ℤ).map fromOct).flatten ++ fromOct 0
  List.insertionSort (fun a b => a ≤ b) collected.dedup

/-! ### Composer state (the fields of class AudioEngine read or written
by generateNewPatterns / generateNextBar; the effect parameters
lowpassFreq, delayTime and feedbackGain live on audio nodes in the
source and are carried here as plain numbers). -/

/-- The current chord (audioEngine.ts lines 64-68). -/
structure Chord where
  rootFreq : ℝ
  intervals : List ℕ
  absoluteSemitones : List ℕ

structure ComposerState where
  bpm : ℚ
  lowpassFreq : ℚ
  delayTime : ℚ
  feedbackGain : ℚ
  scale : List ℕ
  keyRootFreq : ℝ
  progressionTemplate : List ℕ
  progressionIndex : ℕ
  currentScaleDegree : ℕ
  currentScaleNotes : List ℤ
  barCount : ℕ
  currentChord : Option Chord
  currentPadNotes : List Note
  prevPadFrequencies : List ℝ
  currentBassNote : Option Note
  currentLeadMelodyNotes : List Note
  currentArpNotes : List Note
  currentAtmosphereNote : Option Note
  currentElectricPianoNotes : List Note
  currentFluteNotes : List Note
  currentDrumPattern : DrumPattern
  vinylCrackle : Bool

/-! ### generateNextBar sections (lines 721-1159), in source order.
Every section threads the per-bar PRNG stream by an explicit index and
consumes draws exactly where the source calls rng(), including draws
skipped by JS short-circuit evaluation. -/

/-- Semitone distance used by the pad voice leading:
Math.abs(Math.log2(prevFreq / targetFreq) * 12). -/
noncomputable def semitoneDist (p t : ℝ) : ℝ := |Real.logb 2 (p / t) * 12|

/-- Pad notes (lines 760-768): one sustained note per led frequency;
three draws per note (velocity, attack, release), in list order. -/
noncomputable def padNotesOf (s : ℕ → ℚ) : List ℝ → ℕ → List Note × ℕ
  | [], k => ([], k)
  | f :: fs, k =>
      let note : Note :=
        { frequency := f, duration := 19/5,
          velocity := some (1/10 + s k * (1/20)),
          type := some OscType.triangle,
          attack := some (3/2 + s (k+1) * 1),
          decay := some (4/5), sustain := some (7/10),
          release := some (2 + s (k+2) * 1),
          instrument := some Instrument.pad }
      let r := padNotesOf s fs (k + 3)
      (note :: r.1, r.2)

/-- Bass note (lines 771-804): 20% chance to target the fifth of the
voicing (falling back to the root if the voicing has no perfect fifth),
then one or two octaves down, then the note object with its four draws. -/
noncomputable def bassSection (s : ℕ → ℚ) (k : ℕ) (chordRootFreq : ℝ)
    (chordIntervals : List ℕ) : Note × ℕ :=
  let playFifth := s k < 1/5
  let bassTargetFreq : ℝ :=
    if playFifth then
      match chordIntervals.find? (fun i => i == 7) with
      | some f => chordRootFreq * semitoneFactor (f : ℤ)
      | none => chordRootFreq
    else chordRootFreq
  let octaveMultiplier : ℝ := if s (k+1) < 7/10 then 1/2 else 1/4
  let k2 := k + 2
  ({ frequency := bassTargetFreq * octaveMultiplier,
     duration := if s k2 < 3/10 then 19/10 else 39/10,
     velocity := some (1/5 + s (k2+1) * (2/25)),
     type := some (if s (k2+2) < 3/5 then OscType.sine else OscType.triangle),
     attack := some (1/25), decay := some (3/10), sustain := some (4/5),
     release := some (1/2 + s (k2+3) * (3/10)),
     instrument := some Instrument.bass }, k2 + 4)

/-- The duplicate-target-beat filter applied to lead (dropping notes
without a beat) and flute (keeping notes without a beat) note lists. -/
def uniqueBeatFilter (keepNone : Bool) : List Note → List ℤ → List Note
  | [], _ => []
  | n :: ns, seen =>
      match n.targetBeatInBar with
      | none =>
          if keepNone then n :: uniqueBeatFilter keepNone ns seen
          else uniqueBeatFilter keepNone ns seen
      | some b =>
          if seen.contains b then uniqueBeatFilter keepNone ns seen
          else n :: uniqueBeatFilter keepNone ns (b :: seen)

/-- One iteration chain of the lead-melody for loop (lines 821-852);
the selection draw is only consumed when unpicked chord tones exist
(JS short-circuits the conjunction), and each pushed note consumes seven
draws in object-literal order. -/
noncomputable def leadLoop (s : ℕ → ℚ) (sortedCT sortedH leadRange : List ℤ) :
    ℕ → ℕ → List ℤ → ℕ → List Note × ℕ
  | 0, _, _, k => ([], k)
  | n + 1, i, picked, k =>
      let unpickedCT := sortedCT.filter (fun m => ¬ picked.contains m)
      let unpickedH := sortedH.filter (fun m => ¬ picked.contains m)
      let chance : ℚ := if i = 0 then 3/4 else 3/5
      let sel : Option ℤ × ℕ :=
        if unpickedCT ≠ [] then
          if s k < chance then (some (unpickedCT.headD 0), k+1)
          else if unpickedH ≠ [] then (some (unpickedH.headD 0), k+1)
          else (some (unpickedCT.headD 0), k+1)
        else
          if unpickedH ≠ [] then (some (unpickedH.headD 0), k)
          else if leadRange ≠ [] then
            let fallback := leadRange.filter (fun m => ¬ picked.contains m)
            (some (if fallback ≠ [] then fallback.headD 0 else leadRange.headD 0), k)
          else (none, k)
      match sel.1 with
      | some midi =>
          let k1 := sel.2
          let note : Note :=
            { frequency := freqOfMidi midi,
              duration := (if s k1 < 2/5 then 13/10 else 3/5) + s (k1+1) * (2/5),
              velocity := some (3/25 + s (k1+2) * (3/50)),
              type := some (if s (k1+3) < 1/2 then OscType.sine else OscType.triangle),
              attack := some (1/20 + s (k1+4) * (1/10)),
              decay := some (3/20), sustain := some (3/5),
              release := some (2/5 + s (k1+5) * (3/10)),
              instrument := some Instrument.lead,
              targetBeatInBar := some ⌊s (k1+6) * 4⌋ }
          let r := leadLoop s sortedCT sortedH leadRange n (i+1) (midi :: picked) (k1 + 7)
          (note :: r.1, r.2)
      | none => leadLoop s sortedCT sortedH leadRange n (i+1) picked sel.2

/-- Lead melody section (lines 806-860). -/
noncomputable def leadSection (s : ℕ → ℚ) (k : ℕ) (currentScaleNotes : List ℤ)
    (currentChordMidiNotes : List ℤ) (chordRootMidi : ℤ) : List Note × ℕ :=
  let numMelodyNotes := (1 + ⌊s k * 3⌋).toNat
  let k0 := k + 1
  let leadRange := currentScaleNotes.filter (fun n => 60 ≤ n ∧ n ≤ 84)
  if leadRange ≠ [] then
    let availableCT := currentChordMidiNotes.filter (fun m => leadRange.contains m)
    let sortedCT := List.insertionSort (fun a b => a ≤ b) availableCT
    let harmonious := leadRange.filter (fun n =>
      (n - chordRootMidi).natAbs % 12 ≠ 6 ∧ (n - chordRootMidi).natAbs % 12 ≠ 1)
    let sortedH := List.insertionSort (fun a b => a ≤ b) harmonious
    let r := leadLoop s sortedCT sortedH leadRange numMelodyNotes 0 [] k0
    (uniqueBeatFilter false r.1 [], r.2)
  else ([], k0)

/-- The engine-specific JS Array.sort with the comparator
() => 0.5 - rng(): modelled as an insertion sort consuming one draw per
element comparison (comparator result at most 0 keeps the earlier
element first). -/
def randInsert (s : ℕ → ℚ) : ℤ → List ℤ → ℕ → List ℤ × ℕ
  | a, [], k => ([a], k)
  | a, b :: bs, k =>
      if (1/2 : ℚ) - s k ≤ 0 then (a :: b :: bs, k + 1)
      else
        let r := randInsert s a bs (k + 1)
        (b :: r.1, r.2)

def jsRandomSort (s : ℕ → ℚ) : List ℤ → ℕ → List ℤ × ℕ
  | [], k => ([], k)
  | a :: as, k =>
      let r := jsRandomSort s as k
      randInsert s a r.1 r.2

/-- Arp note pushes (lines 913-928): arpLen notes cycling through the
sequence, one velocity draw per note, with precomputed 16th steps. -/
noncomputable def arpNotesLoop (s : ℕ → ℚ) (seq : List ℤ) (arpLen : ℕ) :
    ℕ → ℕ → ℕ → List Note × ℕ
  | 0, _, k => ([], k)
  | n + 1, i, k =>
      let midi := seq.getD (i % seq.length) 0
      let note : Note :=
        { frequency := freqOfMidi midi, duration := 4 / (arpLen : ℚ),
          velocity := some (2/25 + s k * (1/25)),
          type := some OscType.sine,
          attack := some (1/100), decay := some (1/10),
          sustain := some (7/10), release := some (3/20),
          instrument := some Instrument.arp,
          target16thStep := some ⌊(i : ℚ) * (16 / (arpLen : ℚ))⌋ }
      let r := arpNotesLoop s seq arpLen n (i+1) (k+1)
      (note :: r.1, r.2)

/-- Arpeggiator section (lines 862-929). -/
noncomputable def arpSection (s : ℕ → ℚ) (k : ℕ) (absoluteSemitones : List ℕ)
    (keyRootFreq : ℝ) (currentScaleNotes : List ℤ) : List Note × ℕ :=
  let patternIdx := ⌊s k * 5⌋
  let arpBaseOctaveMidi : ℤ := if s (k+1) < 1/2 then 0 else 1
  let k0 := k + 2
  let candidates := (absoluteSemitones.map (fun semi =>
      let baseFreq := keyRootFreq * semitoneFactor (semi : ℤ)
      let midi1 := round (midiOfFreq baseFreq) + arpBaseOctaveMidi * 12
      foldDownInto 48 84 100 (foldUpInto 48 84 100 midi1))).filter
      (fun m => 48 ≤ m ∧ m ≤ 84 ∧ currentScaleNotes.contains m)
  if candidates ≠ [] then
    let lenR : ℕ × ℕ :=
      if s k0 < 3/10 then (4, k0 + 1)
      else if s (k0+1) < 7/10 then (8, k0 + 2) else (16, k0 + 2)
    let uniqueArpNotes := List.insertionSort (fun a b => a ≤ b) candidates.dedup
    let upDownTail : List ℤ → List ℤ := fun l =>
      if 2 < l.length then (List.range (l.length - 2)).map (fun j => l.getD (l.length - 2 - j) 0)
      else []
    let descL := List.insertionSort (fun a b => b ≤ a) uniqueArpNotes
    let seqR : List ℤ × ℕ :=
      if patternIdx = 0 then (uniqueArpNotes, lenR.2)
      else if patternIdx = 1 then (descL, lenR.2)
      else if patternIdx = 2 then (uniqueArpNotes ++ upDownTail uniqueArpNotes, lenR.2)
      else if patternIdx = 3 then (descL ++ upDownTail descL, lenR.2)
      else if patternIdx = 4 then jsRandomSort s uniqueArpNotes lenR.2
      else (uniqueArpNotes, lenR.2)
    if seqR.1 ≠ [] then arpNotesLoop s seqR.1 lenR.1 lenR.1 0 seqR.2
    else ([], seqR.2)
  else ([], k0)

/-- Electric piano note pushes (lines 981-995): two draws per note. -/
noncomputable def epPushNotes (s : ℕ → ℚ) : List ℤ → ℤ → ℕ → List Note × ℕ
  | [], _, k => ([], k)
  | m :: ms, beat, k =>
      let note : Note :=
        { frequency := freqOfMidi m,
          duration := 7/10 + s k * (3/10),
          velocity := some (11/100 + s (k+1) * (1/20)),
          type := some OscType.sine,
          attack := some (1/50), decay := some (3/5),
          sustain := some (3/10), release := some (1/2),
          instrument := some Instrument.electricPiano,
          targetBeatInBar := some beat }
      let r := epPushNotes s ms beat (k+2)
      (note :: r.1, r.2)

/-- Per-selected-beat body of the electric piano section (lines
941-996): chord tones an octave down filtered to scale and C3-C5, the
two-stage fallback through harmonious then arbitrary scale notes (each
shuffling and slicing), the size cap with its extra shuffle, then the
note pushes. -/
noncomputable def epPerBeat (s : ℕ → ℚ) (chordIntervals : List ℕ) (chordRootFreq : ℝ)
    (chordRootMidi : ℤ) (currentScaleNotes : List ℤ) : List ℤ → ℕ → List Note × ℕ
  | [], k => ([], k)
  | beat :: rest, k =>
      let targetChordRootMidi : ℝ := midiOfFreq chordRootFreq + (-1 : ℝ) * 12
      let chordTones := chordIntervals.map (fun i => round (targetChordRootMidi + (i : ℝ)))
      let notes0 := chordTones.filter (fun m => currentScaleNotes.contains m ∧ 48 ≤ m ∧ m ≤ 72)
      let fb : List ℤ × ℕ :=
        if notes0 = [] then
          let baseFallbackRange := currentScaleNotes.filter (fun n => 48 ≤ n ∧ n ≤ 72)
          let harmonious := baseFallbackRange.filter (fun n =>
            ¬ ((n - chordRootMidi).natAbs % 12 = 1 ∨ (n - chordRootMidi).natAbs % 12 = 6 ∨
               (n - chordRootMidi).natAbs % 12 = 11))
          if harmonious ≠ [] then
            let sh := jsRandomSort s harmonious k
            (sh.1.take (2 + ⌊s sh.2 * 2⌋).toNat, sh.2 + 1)
          else if baseFallbackRange ≠ [] then
            let sh := jsRandomSort s baseFallbackRange k
            (sh.1.take (2 + ⌊s sh.2 * 2⌋).toNat, sh.2 + 1)
          else ([], k)
        else (notes0, k)
      let limitCond := s fb.2 < 3/5
      let k1 := fb.2 + 1
      let trimmed : List ℤ × ℕ :=
        if (fb.1.length : ℤ) > (if limitCond then 3 else 4) then
          let sh := jsRandomSort s fb.1 k1
          (sh.1.take (if s sh.2 < 3/5 then 3 else 4), sh.2 + 1)
        else (fb.1, k1)
      let pushed := epPushNotes s trimmed.1 beat trimmed.2
      let r := epPerBeat s chordIntervals chordRootFreq chordRootMidi currentScaleNotes rest pushed.2
      (pushed.1 ++ r.1, r.2)

/-- Electric piano section (lines 931-997): four beat-selection draws,
then the per-beat bodies. -/
noncomputable def epSection (s : ℕ → ℚ) (k : ℕ) (chordIntervals : List ℕ)
    (chordRootFreq : ℝ) (chordRootMidi : ℤ) (currentScaleNotes : List ℤ) :
    List Note × ℕ :=
  let epBeats : List ℤ :=
    (if s k < 9/10 then [0] else []) ++ (if s (k+1) < 2/5 then [1] else []) ++
    (if s (k+2) < 2/5 then [2] else []) ++ (if s (k+3) < 2/5 then [3] else [])
  epPerBeat s chordIntervals chordRootFreq chordRootMidi currentScaleNotes epBeats (k + 4)

/-- One iteration chain of the flute for loop (lines 1015-1045),
analogous to the lead loop with chord-tone chances 0.70 / 0.50 and three
draws per pushed note. -/
noncomputable def fluteLoop (s : ℕ → ℚ) (sortedCT sortedH fluteRange : List ℤ) :
    ℕ → ℕ → List ℤ → ℕ → List Note × ℕ
  | 0, _, _, k => ([], k)
  | n + 1, i, picked, k =>
      let unpickedCT := sortedCT.filter (fun m => ¬ picked.contains m)
      let unpickedH := sortedH.filter (fun m => ¬ picked.contains m)
      let chance : ℚ := if i = 0 then 7/10 else 1/2
      let sel : Option ℤ × ℕ :=
        if unpickedCT ≠ [] then
          if s k < chance then (some (unpickedCT.headD 0), k+1)
          else if unpickedH ≠ [] then (some (unpickedH.headD 0), k+1)
          else (some (unpickedCT.headD 0), k+1)
        else
          if unpickedH ≠ [] then (some (unpickedH.headD 0), k)
          else if fluteRange ≠ [] then
            let fallback := fluteRange.filter (fun m => ¬ picked.contains m)
            (some (if fallback ≠ [] then fallback.headD 0 else fluteRange.headD 0), k)
          else (none, k)
      match sel.1 with
      | some midi =>
          let k1 := sel.2
          let note : Note :=
            { frequency := freqOfMidi midi,
              duration := 3/5 + s k1 * (2/5),
              velocity := some (9/100 + s (k1+1) * (1/20)),
              type := some OscType.sine,
              instrument := some Instrument.flute,
              targetBeatInBar := some ⌊s (k1+2) * 4⌋ }
          let r := fluteLoop s sortedCT sortedH fluteRange n (i+1) (midi :: picked) (k1 + 3)
          (note :: r.1, r.2)
      | none => fluteLoop s sortedCT sortedH fluteRange n (i+1) picked sel.2

/-- Flute section (lines 999-1054): 80% chance per bar, then the note
count draw and the loop, then the duplicate-beat filter that keeps
beat-less notes. -/
noncomputable def fluteSection (s : ℕ → ℚ) (k : ℕ) (currentScaleNotes : List ℤ)
    (currentChordMidiNotes : List ℤ) (chordRootMidi : ℤ) : List Note × ℕ :=
  if s k < 4/5 then
    let fluteNoteCount := (1 + ⌊s (k+1) * 3⌋).toNat
    let k0 := k + 2
    let fluteRange := currentScaleNotes.filter (fun n => 60 ≤ n ∧ n ≤ 84)
    if fluteRange ≠ [] then
      let availableCT := currentChordMidiNotes.filter (fun m => fluteRange.contains m)
      let sortedCT := List.insertionSort (fun a b => a ≤ b) availableCT
      let harmonious := fluteRange.filter (fun n =>
        (n - chordRootMidi).natAbs % 12 ≠ 6 ∧ (n - chordRootMidi).natAbs % 12 ≠ 1)
      let sortedH := List.insertionSort (fun a b => a ≤ b) harmonious
      let r := fluteLoop s sortedCT sortedH fluteRange fluteNoteCount 0 [] k0
      (uniqueBeatFilter true r.1 [], r.2)
    else ([], k0)
  else ([], k + 1)

/-- generateNextBar (lines 721-1159) as a function of the per-bar PRNG
stream and the engine fields it reads; the result is the full composer
state after the call (fields the method does not touch are passed
through, every buffer it rebuilds is replaced). -/
noncomputable def genNextBarCore (s : ℕ → ℚ) (bpm : ℚ)
    (lowpassFreq delayTime feedbackGain : ℚ) (scale : List ℕ) (keyRootFreq : ℝ)
    (progressionTemplate : List ℕ) (progressionIndex : ℕ)
    (currentScaleNotes : List ℤ) (barCount : ℕ) (prevPadFrequencies : List ℝ)
    (prevAtmo : Option Note) : ComposerState :=
  let pIdx :=
    if 0 < barCount then (progressionIndex + 1) % progressionTemplate.length
    else progressionIndex
  let degree := progressionTemplate.getD pIdx 0
  let semitoneInKeyForChordRoot := scale.getD (degree % scale.length) 0
  let chordRootFreq := keyRootFreq * semitoneFactor (semitoneInKeyForChordRoot : ℤ)
  let vR := getChordQualityAndVoicing degree scale s 0
  let chord : Chord :=
    { rootFreq := chordRootFreq, intervals := vR.1,
      absoluteSemitones := vR.1.map (fun i => semitoneInKeyForChordRoot + i) }
  let currentChordAbsoluteFrequencies :=
    chord.absoluteSemitones.map (fun semi => keyRootFreq * semitoneFactor (semi : ℤ))
  let currentChordMidiNotes :=
    (currentChordAbsoluteFrequencies.map (fun f => round (midiOfFreq f))).filter
      (fun m => currentScaleNotes.contains m)
  let chordRootMidi := round (midiOfFreq chord.rootFreq)
  let baseOctavePad : ℤ := if s vR.2 < 1/2 then -1 else 0
  let k2 := vR.2 + 1
  let padTargetFrequencies := chord.intervals.map (fun interval =>
    chord.rootFreq * semitoneFactor ((interval : ℤ) + baseOctavePad * 12))
  let ledPadFrequencies := voiceLeadPads semitoneDist padTargetFrequencies prevPadFrequencies
  let padR := padNotesOf s ledPadFrequencies k2
  let bassR := bassSection s padR.2 chord.rootFreq chord.intervals
  let leadR := leadSection s bassR.2 currentScaleNotes currentChordMidiNotes chordRootMidi
  let arpR := arpSection s leadR.2 chord.absoluteSemitones keyRootFreq currentScaleNotes
  let epR :=
    if chord.intervals ≠ [] then
      epSection s arpR.2 chord.intervals chord.rootFreq chordRootMidi currentScaleNotes
    else ([], arpR.2)
  let fluteR := fluteSection s epR.2 currentScaleNotes currentChordMidiNotes chordRootMidi
  let atmoR := atmoSection s fluteR.2 barCount chordRootMidi chord.intervals
    (round (midiOfFreq keyRootFreq)) currentScaleNotes prevAtmo
  let drumsR := genDrums s atmoR.2
  let vinyl := s drumsR.2 < 1/2
  { bpm := bpm, lowpassFreq := lowpassFreq, delayTime := delayTime,
    feedbackGain := feedbackGain, scale := scale, keyRootFreq := keyRootFreq,
    progressionTemplate := progressionTemplate, progressionIndex := pIdx,
    currentScaleDegree := degree, currentScaleNotes := currentScaleNotes,
    barCount := barCount + 1, currentChord := some chord,
    currentPadNotes := padR.1, prevPadFrequencies := ledPadFrequencies,
    currentBassNote := some bassR.1, currentLeadMelodyNotes := leadR.1,
    currentArpNotes := arpR.1, currentAtmosphereNote := atmoR.1,
    currentElectricPianoNotes := epR.1, currentFluteNotes := fluteR.1,
    currentDrumPattern := drumsR.1, vinylCrackle := vinyl }

/-- generateNextBar as a state transformer (reading exactly the fields
the method reads before overwriting them). -/
noncomputable def generateNextBar (s : ℕ → ℚ) (c : ComposerState) : ComposerState :=
  genNextBarCore s c.bpm c.lowpassFreq c.delayTime c.feedbackGain c.scale
    c.keyRootFreq c.progressionTemplate c.progressionIndex c.currentScaleNotes
    c.barCount c.prevPadFrequencies c.currentAtmosphereNote

/-! ### generateNewPatterns (lines 630-690)

baseRng = this.seededRandom(rngSeed) with rngSeed = this.currentSeed has
initial internal state currentSeed + rngSeed = 2 * seed; the method
consumes nine draws in a fixed order, so every generated field is a
function of the seed alone.  The voicing of the primed bar-0 chord draws
from this.seededRandom(rngSeed + this.barCount + 8) with barCount
already reset to 0. -/

def genNewDraw (seed : ℤ) (n : ℕ) : ℚ := lcgOut (seed + seed) n

/-- The fixed low-register key root palette (lines 634-642). -/
def rootNotes : List ℚ := [8241/100, 98, 110, 13081/100, 14683/100, 16481/100, 196]

/-- The scale table (lines 645-653), intervals only (names are unused). -/
def scalesTable : List (List ℕ) :=
  [[0,2,4,5,7,9,11], [0,2,3,5,7,8,10], [0,2,3,5,7,9,10], [0,2,4,5,7,9,10],
   [0,2,4,6,7,9,11], [0,2,4,7,9], [0,3,5,7,10]]

noncomputable def genNewKeyRoot (seed : ℤ) : ℝ :=
  ((jsGetD rootNotes ⌊genNewDraw seed 0 * 7⌋ 0 : ℚ) : ℝ)

def genNewScale (seed : ℤ) : List ℕ := jsGetD scalesTable ⌊genNewDraw seed 1 * 7⌋ []

def genNewTemplate (seed : ℤ) : List ℕ :=
  jsGetD progressionTemplates ⌊genNewDraw seed 2 * 11⌋ []

/-- Seed-influenced BPM (lines 661-663): clamped to 50..90. -/
def genNewBpm (seed : ℤ) : ℚ :=
  let bpmCenter : ℤ := 60 + ⌊genNewDraw seed 3 * 20⌋
  let bpmSpread : ℤ := 5 + ⌊genNewDraw seed 4 * 5⌋
  ((max 50 (min 90
    (bpmCenter - bpmSpread + ⌊genNewDraw seed 5 * ((bpmSpread * 2 + 1 : ℤ) : ℚ)⌋)) : ℤ) : ℚ)

def genNewLowpass (seed : ℤ) : ℚ := 2000 + genNewDraw seed 6 * 2500

def delayTimeOptions : List ℚ := [1/4, 1/2, 3/4, 1]

def genNewDelayTime (seed : ℤ) : ℚ :=
  (60 / genNewBpm seed) * jsGetD delayTimeOptions ⌊genNewDraw seed 7 * 4⌋ 0

def genNewFeedback (seed : ℤ) : ℚ := 1/4 + genNewDraw seed 8 * (3/10)

noncomputable def genNewScaleNotes (seed : ℤ) : List ℤ :=
  getNotesInScale (genNewKeyRoot seed) (genNewScale seed)

def genNewDegree (seed : ℤ) : ℕ := (genNewTemplate seed).getD 0 0

/-- The chord primed for bar 0 (lines 681-689). -/
noncomputable def genNewChord (seed : ℤ) : Chord :=
  let degree := genNewDegree seed
  let scale := genNewScale seed
  let semitoneInKey := scale.getD (degree % scale.length) 0
  let voicing := (getChordQualityAndVoicing degree scale
    (fun n => seededRandom seed (seed + 0 + 8) n) 0).1
  { rootFreq := genNewKeyRoot seed * semitoneFactor (semitoneInKey : ℤ),
    intervals := voicing,
    absoluteSemitones := voicing.map (fun i => semitoneInKey + i) }

/-- generateNewPatterns as a state transformer: overwrites the harmonic
and effect parameters from the seed, resets the bar counter and the
voice-leading history, and primes the chord for bar 0 (the note buffers
and the drone are not touched by the method; the source also resets the
two scheduler step counters, which live in the scheduler state here). -/
noncomputable def generateNewPatterns (seed : ℤ) (c : ComposerState) : ComposerState :=
  { c with
    keyRootFreq := genNewKeyRoot seed,
    scale := genNewScale seed,
    currentScaleNotes := genNewScaleNotes seed,
    progressionTemplate := genNewTemplate seed,
    progressionIndex := 0,
    bpm := genNewBpm seed,
    lowpassFreq := genNewLowpass seed,
    delayTime := genNewDelayTime seed,
    feedbackGain := genNewFeedback seed,
    barCount := 0,
    prevPadFrequencies := [],
    currentScaleDegree := genNewDegree seed,
    currentChord := some (genNewChord seed) }

/-- One scheduler-driven generateNextBar call: scheduleNextNotes (line
1170) builds rng = this.seededRandom(this.barCount + current16th) with
current16th = 0 at a bar boundary, then generateNextBar draws from it
from the start. -/
noncomputable def stepBar (seed : ℤ) (c : ComposerState) : ComposerState :=
  generateNextBar (fun n => seededRandom seed ((c.barCount : ℤ) + 0) n) c

/-- The composer state after generateNewPatterns and n scheduler-driven
generateNextBar calls, starting from an arbitrary prior engine state. -/
noncomputable def runComposer (seed : ℤ) (c0 : ComposerState) : ℕ → ComposerState
  | 0 => generateNewPatterns seed c0
  | n + 1 => stepBar seed (runComposer seed c0 n)

/-- The per-bar outputs named by the determinism property: key root
frequency, scale intervals, tempo, chord root frequency, voicing
intervals, drum pattern. -/
structure BarOutput where
  keyRootFreq : ℝ
  scale : List ℕ
  bpm : ℚ
  chordRoot : Option ℝ
  voicing : Option (List ℕ)
  drums : DrumPattern

noncomputable def barOutput (c : ComposerState) : BarOutput :=
  ⟨c.keyRootFreq, c.scale, c.bpm, c.currentChord.map Chord.rootFreq,
   c.currentChord.map Chord.intervals, c.currentDrumPattern⟩

/-- The output sequence of a run: generateNewPatterns followed by
numBars scheduler-driven bars, observing each bar. -/
noncomputable def composerTrace (seed : ℤ) (c0 : ComposerState) (numBars : ℕ) :
    List BarOutput :=
  (List.range numBars).map (fun j => barOutput (runComposer seed c0 (j + 1)))

/-- The field-initializer state of a freshly constructed AudioEngine
(class fields, lines 31-80). -/
noncomputable def freshComposer : ComposerState :=
  { bpm := 70, lowpassFreq := 3500, delayTime := (60/70) * (1/2),
    feedbackGain := 35/100, scale := [], keyRootFreq := 220,
    progressionTemplate := [], progressionIndex := 0, currentScaleDegree := 0,
    currentScaleNotes := [], barCount := 0, currentChord := none,
    currentPadNotes := [], prevPadFrequencies := [], currentBassNote := none,
    currentLeadMelodyNotes := [], currentArpNotes := [],
    currentAtmosphereNote := none, currentElectricPianoNotes := [],
    currentFluteNotes := [], currentDrumPattern := ⟨[], [], []⟩,
    vinylCrackle := false }

/-! ### Scheduler counters (lines 1161-1251)

scheduler() repeats, while the lookahead window is open:
scheduleNextNotes(current16thStepInBar) then advanceNote().
scheduleNextNotes calls generateNextBar exactly when the step is 0, and
generateNextBar ends with this.barCount++ (line 1158); no other
statement of the loop touches the counters.  advanceNote (lines
1246-1251) adds one sixteenth note to nextNoteTime, increments the
global step, and wraps the step-in-bar modulo 16.  The record below is
the projection of the engine state onto these counters, and
schedulerIteration is one loop body. -/

structure SchedulerCounters where
  bpm : ℚ
  nextNoteTime : ℚ
  currentGlobal16thStep : ℕ
  current16thStepInBar : ℕ
  barCount : ℕ
deriving DecidableEq

/-- advanceNote (lines 1246-1251). -/
def advanceNote (s : SchedulerCounters) : SchedulerCounters :=
  { s with nextNoteTime := s.nextNoteTime + (60 / s.bpm) / 4,
           currentGlobal16thStep := s.currentGlobal16thStep + 1,
           current16thStepInBar := (s.current16thStepInBar + 1) % 16 }

/-- One iteration of the scheduler loop projected onto the counters:
the dispatch phase increments barCount exactly when the step is 0
(generateNextBar), then advanceNote runs. -/
def schedulerIteration (s : SchedulerCounters) : SchedulerCounters :=
  advanceNote
    (if s.current16thStepInBar = 0 then { s with barCount := s.barCount + 1 } else s)

/-! ### Engine facade (constructor and lines 1253-1331)

JS numbers arriving through the facade can be NaN (the spec explicitly
discusses non-numeric input), so facade-level numbers are modelled as
NaN-or-exact-rational; Math.min and Math.max return NaN when any
argument is NaN.  Timers: window.setInterval returns a fresh id,
clearInterval cancels it; the state tracks the stored id, a counter of
currently registered periodic timers and the next fresh id, so that
registering a second timer is visible in the state. -/

inductive JSNum
  | nan : JSNum
  | num : ℚ → JSNum
deriving DecidableEq

def jsMin : JSNum → JSNum → JSNum
  | JSNum.nan, _ => JSNum.nan
  | _, JSNum.nan => JSNum.nan
  | JSNum.num a, JSNum.num b => JSNum.num (min a b)

def jsMax : JSNum → JSNum → JSNum
  | JSNum.nan, _ => JSNum.nan
  | _, JSNum.nan => JSNum.nan
  | JSNum.num a, JSNum.num b => JSNum.num (max a b)

/-- Whether a facade number is an ordinary number inside [0, 1]. -/
def JSNum.inUnit : JSNum → Bool
  | JSNum.nan => false
  | JSNum.num q => decide (0 ≤ q ∧ q ≤ 1)

structure Engine where
  isPlaying : Bool
  intervalId : Option ℕ
  activeTimerCount : ℕ
  nextTimerId : ℕ
  currentVolume : JSNum
  persistedVolume : Option JSNum
  mainGainValue : JSNum
  dryGainValue : ℚ
  wetGainValue : ℚ
  currentSeed : ℤ
  nextNoteTime : ℚ
  currentGlobal16thStep : ℕ
  current16thStepInBar : ℕ
  composer : ComposerState

/-- setVolume (lines 1306-1313): clamp through Math.max(0, Math.min(1,
volume)), store, apply to the master gain immediately only while
playing, persist to localStorage. -/
def setVolume (e : Engine) (volume : JSNum) : Engine :=
  let v := jsMax (JSNum.num 0) (jsMin (JSNum.num 1) volume)
  { e with currentVolume := v,
           mainGainValue := if e.isPlaying then v else e.mainGainValue,
           persistedVolume := some v }

def getVolume (e : Engine) : JSNum := e.currentVolume

/-- stop (lines 1290-1304): early return while idle; otherwise clear the
periodic timer and zero the main, dry and wet gains.  The method never
throws (every statement is total). -/
def stop (e : Engine) : Engine :=
  if e.isPlaying = false then e
  else
    { e with isPlaying := false,
             intervalId := none,
             activeTimerCount :=
               e.activeTimerCount - (if e.intervalId.isSome then 1 else 0),
             mainGainValue := JSNum.num 0,
             dryGainValue := 0, wetGainValue := 0 }

/-- start (lines 1268-1288): early return while playing; otherwise
restore the master gain to the stored volume and the dry/wet mix to
0.65/0.35, reset the step counters, set nextNoteTime slightly ahead of
the audio clock (the clock reading is the now argument), regenerate
patterns from the current seed, and register one periodic timer.  The
await of audioContext.resume() is an external no-op here. -/
noncomputable def start (e : Engine) (now : ℚ) : Engine :=
  if e.isPlaying then e
  else
    { e with mainGainValue := e.currentVolume,
             dryGainValue := 65/100, wetGainValue := 35/100,
             isPlaying := true,
             currentGlobal16thStep := 0,
             current16thStepInBar := 0,
             nextNoteTime := now + 1/10,
             composer := generateNewPatterns e.currentSeed e.composer,
             intervalId := some e.nextTimerId,
             nextTimerId := e.nextTimerId + 1,
             activeTimerCount := e.activeTimerCount + 1 }

/-- An idle freshly constructed engine (constructor lines 121-179, with
no stored volume in localStorage and seed 0 standing for the
wall-clock-derived Date.now() % 100000). -/
noncomputable def engineFresh : Engine :=
  { isPlaying := false, intervalId := none, activeTimerCount := 0,
    nextTimerId := 0, currentVolume := JSNum.num (35/100),
    persistedVolume := none, mainGainValue := JSNum.num (35/100),
    dryGainValue := 65/100, wetGainValue := 35/100, currentSeed := 0,
    nextNoteTime := 0, currentGlobal16thStep := 0, current16thStepInBar := 0,
    composer := freshComposer }

/-- A playing engine state used to instantiate facade theorems. -/
noncomputable def enginePlaying : Engine :=
  { engineFresh with isPlaying := true, intervalId := some 0,
                     activeTimerCount := 1, nextTimerId := 1 }

/-! ### Concrete instances used by closed theorems below -/

/-- A scheduler state sitting at the last step of a bar. -/
def schedStep15 : SchedulerCounters :=
  { bpm := 70, nextNoteTime := 0, currentGlobal16thStep := 15,
    current16thStepInBar := 15, barCount := 5 }

/-- An arbitrary concrete note (a held drone). -/
noncomputable def noteA : Note := { frequency := 110, duration := 1 }

/-- A concrete per-run draw stream for the atmosphere block: it makes
the drone modulus 2 at bar 2 and 3 at bar 3, so the drone is re-chosen
on two consecutive bars. -/
def c9Stream : ℕ → ℚ :=
  fun n => ([0, 0, 0, 0, 0, 1/3, 0, 1/4, 0, 0, 0, 1/3, 1/2, 0, 0, 0] : List ℚ).getD n 0

/-- The atmosphere state bar by bar for a run in A minor-ish context:
chord root MIDI 45, triad voicing, key root MIDI 45, low scale notes
33 and 45; bar n uses barCount = n as generateNextBar does. -/
noncomputable def c9Bar : ℕ → Option Note × ℕ
  | 0 => atmoSection c9Stream 0 0 45 [0, 4, 7] 45 [33, 45] none
  | n + 1 => atmoSection c9Stream (c9Bar n).2 (n + 1) 45 [0, 4, 7] 45 [33, 45] (c9Bar n).1

/-- A composer state with arbitrary stale note buffers (used to show the
trace does not depend on pre-existing state). -/
noncomputable def composerJunk : ComposerState :=
  { freshComposer with
    vinylCrackle := true, barCount := 7,
    prevPadFrequencies := [100, 200],
    currentPadNotes := [({ frequency := 123, duration := 2 } : Note)],
    currentDrumPattern := ⟨[1], [1], [1]⟩ }

/-! ## Theorems

The section attribute below lets kernel evaluation unfold the core
rational arithmetic operations (they are irreducible by default), so
that closed facts about concrete rationals can be settled by decide. -/

section RatKernelEval

attribute [local semireducible] Rat.add Rat.mul Rat.sub Rat.inv

/-! ### PRNG lemmas (claim C2) -/

theorem lcgState_nonneg (init : ℤ) (h : 0 ≤ init) : ∀ n, 0 ≤ lcgState init n
  | 0 => h
  | n + 1 => Int.tmod_nonneg _ (by have := lcgState_nonneg init h n; nlinarith)

theorem lcgState_lt (init : ℤ) (n : ℕ) : lcgState init (n + 1) < 233280 :=
  Int.tmod_lt_of_pos _ (by norm_num)

theorem lcgOut_mem_Ico (init : ℤ) (h : 0 ≤ init) (n : ℕ) :
    0 ≤ lcgOut init n ∧ lcgOut init n < 1 := by
  have h0 : (0 : ℤ) ≤ lcgState init (n + 1) := lcgState_nonneg init h (n + 1)
  have h1 : lcgState init (n + 1) < 233280 := lcgState_lt init n
  unfold lcgOut
  constructor
  · exact div_nonneg (by exact_mod_cast h0) (by norm_num)
  · rw [div_lt_one (by norm_num)]
    exact_mod_cast h1

/-- Claim C2 (amended): the stream returned by seededRandom(offset) has
internal state initialized to seed + offset, on each call updates it to
(value * 9301 + 49297) % 233280 and returns value / 233280; whenever
seed + offset is nonnegative every returned value lies in [0, 1).  (For
a negative internal state the JS remainder keeps the sign of the
dividend and the returned value can be negative, see the
counterexample.) -/
theorem seededRandom_spec (seed offset : ℤ) (h : 0 ≤ seed + offset) :
    (∀ n, lcgState (seed + offset) (n + 1)
        = (lcgState (seed + offset) n * 9301 + 49297).tmod 233280) ∧
    (∀ n, seededRandom seed offset n
        = ((lcgState (seed + offset) (n + 1) : ℤ) : ℚ) / 233280) ∧
    (∀ n, 0 ≤ seededRandom seed offset n ∧ seededRandom seed offset n < 1) :=
  ⟨fun _ => rfl, fun _ => rfl, fun n => lcgOut_mem_Ico (seed + offset) h n⟩

theorem seededRandom_spec_witness :
    0 ≤ (3 : ℤ) + 2 ∧ 0 ≤ seededRandom 3 2 0 ∧ seededRandom 3 2 0 < 1 :=
  ⟨by decide, (seededRandom_spec 3 2 (by decide)).2.2 0⟩

/-- Claim C2 counterexample: with seed 0 and offset -6 the very first
returned value is negative, so it does not lie in [0, 1): the claim as
stated (for every seed and every integer offset) fails on the code. -/
theorem seededRandom_negative_cex : seededRandom 0 (-6) 0 < 0 := by decide

/-! ### Scheduler counters (claim C4) -/

/-- Claim C4 (amended): one scheduler-loop iteration adds exactly
(60/bpm)/4 seconds to nextNoteTime and advances the step-in-bar modulo
16, but the bar counter is incremented exactly on iterations whose
step-in-bar is 0 (inside generateNextBar during dispatch), not when the
step wraps from 15 to 0; advanceNote itself never touches the bar
counter. -/
theorem schedulerIteration_spec (s : SchedulerCounters) :
    (schedulerIteration s).nextNoteTime = s.nextNoteTime + (60 / s.bpm) / 4 ∧
    (schedulerIteration s).current16thStepInBar = (s.current16thStepInBar + 1) % 16 ∧
    (schedulerIteration s).barCount
      = (if s.current16thStepInBar = 0 then s.barCount + 1 else s.barCount) ∧
    (advanceNote s).barCount = s.barCount := by
  unfold schedulerIteration advanceNote
  split <;> simp

/-- Claim C4 counterexample: at step 15 the iteration wraps the
step-in-bar to 0 but leaves the bar counter unchanged (the counter is
incremented one iteration later, at step 0), refuting the claim that
the advance step increments the bar counter exactly when the step wraps
from 15 to 0. -/
theorem schedulerIteration_wrap_cex :
    (schedulerIteration schedStep15).current16thStepInBar = 0 ∧
    (schedulerIteration schedStep15).barCount = 5 ∧
    (advanceNote schedStep15).barCount = 5 := by decide

/-! ### Facade (claims C5, C6, C8) -/

/-- Claim C5: start() while playing returns without changing any engine
state (in particular without registering a second periodic timer), and
stop() while idle returns without changing any state; both methods are
total, so neither throws. -/
theorem start_stop_noops (e : Engine) (now : ℚ) :
    (e.isPlaying = true → start e now = e) ∧ (e.isPlaying = false → stop e = e) := by
  constructor
  · intro h; unfold start; simp [h]
  · intro h; unfold stop; simp [h]

theorem start_stop_noops_witness :
    start enginePlaying 0 = enginePlaying ∧ stop engineFresh = engineFresh :=
  ⟨(start_stop_noops enginePlaying 0).1 rfl, (start_stop_noops engineFresh 0).2 rfl⟩

/-- Claim C6 (amended): for every ordinary numeric input q, setVolume
stores exactly q clamped to [0,1] (so 1.5 stores 1.0 and -0.2 stores
0.0), getVolume returns that clamped value, the clamped value lies in
[0,1], and while playing it is applied to the master gain; the method
never throws (it is total).  A NaN input, however, is stored as NaN
(Math.max and Math.min propagate NaN), not clamped or ignored. -/
theorem setVolume_clamps (e : Engine) (q : ℚ) :
    getVolume (setVolume e (JSNum.num q)) = JSNum.num (max 0 (min 1 q)) ∧
    (0 ≤ max 0 (min 1 q) ∧ max 0 (min 1 q) ≤ 1) ∧
    (e.isPlaying = true →
      (setVolume e (JSNum.num q)).mainGainValue = JSNum.num (max 0 (min 1 q))) ∧
    (setVolume e JSNum.nan).currentVolume = JSNum.nan := by
  refine ⟨rfl, ⟨le_max_left 0 _, max_le (by norm_num) (min_le_left 1 q)⟩, ?_, rfl⟩
  intro h
  unfold setVolume
  simp [h, jsMin, jsMax]

theorem setVolume_clamps_witness :
    (setVolume enginePlaying (JSNum.num (3/2))).mainGainValue
      = JSNum.num (max 0 (min 1 (3/2))) :=
  (setVolume_clamps enginePlaying (3/2)).2.2.1 rfl

/-- Claim C6 counterexample: setVolume(NaN) stores NaN, which is not a
number in [0,1], so the stored value is not the input clamped to
[0,1] - non-numeric input is neither clamped nor ignored. -/
theorem setVolume_nan_cex :
    JSNum.inUnit (getVolume (setVolume engineFresh JSNum.nan)) = false := by decide

/-- Claim C8: the stored volume survives stop() and start(): after
setVolume(0.5), stop() leaves getVolume() at 0.5 while zeroing the
master gain, and start() restores the master gain to exactly the stored
0.5. -/
theorem volume_survives_stop_start (e : Engine) (now : ℚ) (h : e.isPlaying = true) :
    getVolume (start (stop (setVolume e (JSNum.num (1/2)))) now) = JSNum.num (1/2) ∧
    (start (stop (setVolume e (JSNum.num (1/2)))) now).mainGainValue = JSNum.num (1/2) ∧
    (stop (setVolume e (JSNum.num (1/2)))).mainGainValue = JSNum.num 0 ∧
    getVolume (stop (setVolume e (JSNum.num (1/2)))) = JSNum.num (1/2) := by
  have hcv : (setVolume e (JSNum.num (1/2))).currentVolume = JSNum.num (1/2) := by
    show JSNum.num (max 0 (min 1 (1/2))) = JSNum.num (1/2)
    rw [min_eq_right (by norm_num), max_eq_right (by norm_num)]
  have h1 : (setVolume e (JSNum.num (1/2))).isPlaying = true := h
  have hsp : ∀ f : Engine, f.isPlaying = true →
      (stop f).isPlaying = false ∧ (stop f).mainGainValue = JSNum.num 0 ∧
      (stop f).currentVolume = f.currentVolume := by
    intro f hf
    unfold stop
    rw [hf]
    simp
  have hst : ∀ f : Engine, f.isPlaying = false →
      (start f now).mainGainValue = f.currentVolume ∧
      (start f now).currentVolume = f.currentVolume := by
    intro f hf
    unfold start
    rw [hf]
    simp
  obtain ⟨hA, hB, hC⟩ := hsp _ h1
  obtain ⟨hD, hE⟩ := hst _ hA
  refine ⟨?_, ?_, hB, ?_⟩
  · show (start (stop (setVolume e (JSNum.num (1/2)))) now).currentVolume = _
    rw [hE, hC, hcv]
  · rw [hD, hC, hcv]
  · show (stop (setVolume e (JSNum.num (1/2)))).currentVolume = _
    rw [hC, hcv]

theorem volume_survives_stop_start_witness :
    getVolume (start (stop (setVolume enginePlaying (JSNum.num (1/2)))) 0)
      = JSNum.num (1/2) :=
  (volume_survives_stop_start enginePlaying 0 rfl).1

/-! ### Random index bounds -/

theorem floor_mul_bounds {d : ℚ} (h0 : 0 ≤ d) (h1 : d < 1) {n : ℕ} (hn : 0 < n) :
    0 ≤ ⌊d * (n : ℚ)⌋ ∧ ⌊d * (n : ℚ)⌋ < (n : ℤ) := by
  constructor
  · exact Int.floor_nonneg.mpr (mul_nonneg h0 (by positivity))
  · rw [Int.floor_lt]
    push_cast
    calc d * (n : ℚ) < 1 * (n : ℚ) := by
          exact mul_lt_mul_of_pos_right h1 (by exact_mod_cast hn)
      _ = (n : ℚ) := one_mul _

/-! ### Atmosphere drone re-choice (claim C9) -/

/-- Claim C9 (amended): the drone is not re-chosen by elapsed time since
the last choice; with an in-range draw the per-bar random modulus
2 + floor(rng()*3) lies in {2,3,4}, and on any bar whose barCount is not
divisible by that modulus while a drone exists, the previous drone
continues completely unchanged.  Re-choice happens exactly when the
divisibility test passes (or no drone exists), so re-choices can fall on
consecutive bars (barCount divisible by 2, then by 3) and can also be
more than 4 bars apart. -/
theorem atmo_recheck_rule (s : ℕ → ℚ) (k barCount : ℕ) (chordRootMidi : ℤ)
    (chordIntervals : List ℕ) (keyRootMidi : ℤ) (scaleNotes : List ℤ) (prev : Note)
    (hd : 0 ≤ s k ∧ s k < 1)
    (hm : ¬ ((barCount : ℤ).tmod (2 + ⌊s k * 3⌋) = 0)) :
    (2 ≤ 2 + ⌊s k * 3⌋ ∧ 2 + ⌊s k * 3⌋ ≤ 4) ∧
    atmoSection s k barCount chordRootMidi chordIntervals keyRootMidi scaleNotes
        (some prev) = (some prev, k + 1) := by
  have hf := @floor_mul_bounds (s k) hd.1 hd.2 3 (by norm_num)
  norm_num at hf
  have hm0 : ¬ ((2 + ⌊s k * 3⌋ : ℤ) = 0) := by omega
  refine ⟨by omega, ?_⟩
  simp [atmoSection, hm0, hm]

theorem atmo_recheck_rule_witness :
    atmoSection (fun _ => 1/3) 0 1 45 [0, 4, 7] 45 [33, 45] (some noteA)
      = (some noteA, 1) :=
  (atmo_recheck_rule (fun _ => 1/3) 0 1 45 [0, 4, 7] 45 [33, 45] noteA
    ⟨by norm_num, by norm_num⟩ (by decide)).2

/-- Claim C9 counterexample: in the concrete run c9Bar, the drone chosen
at bar 0 is held through bar 1, re-chosen at bar 2 (modulus draw 2), and
re-chosen again at bar 3 (modulus draw 3) - only one bar after it was
last chosen - refuting that re-choice happens only 2 to 4 bars after the
previous choice (the note durations 14, 14, 18, 22 witness the changes). -/
theorem atmo_consecutive_rechoice_cex :
    (c9Bar 1).1.map Note.duration = (c9Bar 0).1.map Note.duration ∧
    (c9Bar 2).1.map Note.duration ≠ (c9Bar 1).1.map Note.duration ∧
    (c9Bar 3).1.map Note.duration ≠ (c9Bar 2).1.map Note.duration := by decide

/-! ### Drum pattern invariant (claim C7) -/

theorem length_jsSet (l : List ℚ) (i : ℤ) (v : ℚ) : (jsSet l i v).length = l.length := by
  unfold jsSet
  split <;> simp

theorem mem_jsSet_elim {l : List ℚ} {i : ℤ} {v a : ℚ} (h : a ∈ jsSet l i v) :
    a ∈ l ∨ a = v := by
  unfold jsSet at h
  split at h
  · exact List.mem_or_eq_of_mem_set h
  · exact Or.inl h

theorem boundsOk_jsSet {l : List ℚ} (hl : ∀ w ∈ l, 0 ≤ w ∧ w ≤ 1) {i : ℤ} {v : ℚ}
    (hv : 0 ≤ v ∧ v ≤ 1) : ∀ w ∈ jsSet l i v, 0 ≤ w ∧ w ≤ 1 := by
  intro w hw
  rcases mem_jsSet_elim hw with h | h
  · exact hl w h
  · exact h ▸ hv

theorem getD_jsSet_ne (l : List ℚ) {i : ℤ} {j : ℕ} (hij : i ≠ (j : ℤ)) (v : ℚ) :
    (jsSet l i v).getD j 0 = l.getD j 0 := by
  unfold jsSet
  split
  · next h0 =>
      have hne : i.toNat ≠ j := by omega
      simp [List.getD_eq_getElem?_getD, List.getElem?_set_ne hne]
  · rfl

theorem getD_jsSet_self (l : List ℚ) {i : ℤ} {j : ℕ} (hij : i = (j : ℤ))
    (hj : j < l.length) (v : ℚ) : (jsSet l i v).getD j 0 = v := by
  subst hij
  unfold jsSet
  rw [if_pos (by omega)]
  rw [Int.toNat_ofNat j]
  simp [List.getD_eq_getElem?_getD, List.getElem?_set_self hj]

theorem getD_ite_jsSet_ne {l : List ℚ} (c : Prop) [Decidable c] {i : ℤ} {j : ℕ}
    (hij : i ≠ (j : ℤ)) (v : ℚ) :
    (if c then jsSet l i v else l).getD j 0 = l.getD j 0 := by
  split
  · exact getD_jsSet_ne l hij v
  · rfl

theorem length_ite_jsSet (c : Prop) [Decidable c] (l : List ℚ) (i : ℤ) (v : ℚ) :
    (if c then jsSet l i v else l).length = l.length := by
  split <;> simp [length_jsSet]

theorem boundsOk_ite_jsSet {l : List ℚ} (c : Prop) [Decidable c] {i : ℤ} {v : ℚ}
    (hl : ∀ w ∈ l, 0 ≤ w ∧ w ≤ 1) (hv : 0 ≤ v ∧ v ≤ 1) :
    ∀ w ∈ (if c then jsSet l i v else l), 0 ≤ w ∧ w ≤ 1 := by
  split
  · exact boundsOk_jsSet hl hv
  · exact hl

theorem boundsOk_replicate16 : ∀ w ∈ List.replicate 16 (0 : ℚ), 0 ≤ w ∧ w ≤ 1 := by
  intro w hw
  rw [List.eq_of_mem_replicate hw]
  norm_num

theorem genKick_ok (s : ℕ → ℚ) (hs : ∀ i, 0 ≤ s i ∧ s i < 1) (k0 : ℕ) :
    (genKick s k0).1.length = 16 ∧ (∀ w ∈ (genKick s k0).1, 0 ≤ w ∧ w ≤ 1) ∧
    (genKick s k0).1.getD 0 0 = 9/10 := by
  have h47Ne : ∀ m : ℕ, (4 + ⌊s m * 2⌋ * 4 : ℤ) ≠ ((0 : ℕ) : ℤ) := by
    intro m
    have h2 := @floor_mul_bounds (s m) (hs m).1 (hs m).2 2 (by norm_num)
    norm_num at h2
    omega
  have hSyncNe : ∀ m : ℕ, jsGet [2,3,6,7,10,11,13,14] ⌊s m * 8⌋ ≠ ((0 : ℕ) : ℤ) := by
    intro m
    have h8 := @floor_mul_bounds (s m) (hs m).1 (hs m).2 8 (by norm_num)
    norm_num at h8
    obtain ⟨ha, hb⟩ := h8
    set x := ⌊s m * 8⌋ with hx
    interval_cases x <;> decide
  simp only [genKick]
  refine ⟨?_, ?_, ?_⟩
  · rw [length_ite_jsSet, length_ite_jsSet, length_ite_jsSet, length_jsSet]
    simp
  · exact boundsOk_ite_jsSet _
      (boundsOk_ite_jsSet _
        (boundsOk_ite_jsSet _ (boundsOk_jsSet boundsOk_replicate16 (by norm_num))
          (by norm_num))
        (by norm_num)) (by norm_num)
  · rw [getD_ite_jsSet_ne _ (hSyncNe _), getD_ite_jsSet_ne _ (h47Ne _),
        getD_ite_jsSet_ne _ (by decide), getD_jsSet_self _ (by decide) (by simp)]

theorem genSnare_ok (s : ℕ → ℚ) (hs : ∀ i, 0 ≤ s i ∧ s i < 1) (k0 : ℕ) :
    (genSnare s k0).1.length = 16 ∧ (∀ w ∈ (genSnare s k0).1, 0 ≤ w ∧ w ≤ 1) ∧
    (genSnare s k0).1.getD 4 0 = 9/10 ∧ (genSnare s k0).1.getD 12 0 = 9/10 := by
  have hGhost : ∀ m : ℕ, jsGet [7,15] ⌊s m * 2⌋ ≠ ((4 : ℕ) : ℤ) ∧
      jsGet [7,15] ⌊s m * 2⌋ ≠ ((12 : ℕ) : ℤ) := by
    intro m
    have h2 := @floor_mul_bounds (s m) (hs m).1 (hs m).2 2 (by norm_num)
    norm_num at h2
    obtain ⟨ha, hb⟩ := h2
    set x := ⌊s m * 2⌋ with hx
    interval_cases x <;> exact ⟨by decide, by decide⟩
  simp only [genSnare]
  refine ⟨?_, ?_, ?_, ?_⟩
  · rw [length_ite_jsSet, length_jsSet, length_jsSet]
    simp
  · exact boundsOk_ite_jsSet _
      (boundsOk_jsSet (boundsOk_jsSet boundsOk_replicate16 (by norm_num)) (by norm_num))
      (by norm_num)
  · rw [getD_ite_jsSet_ne _ (hGhost _).1, getD_jsSet_ne _ (by decide),
        getD_jsSet_self _ (by decide) (by simp)]
  · rw [getD_ite_jsSet_ne _ (hGhost _).2,
        getD_jsSet_self _ (by decide) (by simp [length_jsSet])]

theorem hihatLoop_ok (s : ℕ → ℚ) (is : List ℤ) : ∀ acc : List ℚ × ℕ,
    acc.1.length = 16 → (∀ w ∈ acc.1, 0 ≤ w ∧ w ≤ 1) →
    (hihatLoop s is acc).1.length = 16 ∧
      ∀ w ∈ (hihatLoop s is acc).1, 0 ≤ w ∧ w ≤ 1 := by
  induction is with
  | nil => intro acc h1 h2; exact ⟨h1, h2⟩
  | cons i is ih =>
      intro acc h1 h2
      simp only [hihatLoop]
      apply ih
      · split
        · rw [show ((jsSet acc.1 i (if i.tmod 4 = 0 then 8/10 else 6/10), acc.2 + 1) :
              List ℚ × ℕ).1 = jsSet acc.1 i (if i.tmod 4 = 0 then 8/10 else 6/10) from rfl,
            length_jsSet]
          exact h1
        · exact h1
      · split
        · exact boundsOk_jsSet h2 (by split <;> norm_num)
        · exact h2

theorem hihatExtra_ok (s : ℕ → ℚ) : ∀ (n : ℕ) (acc : List ℚ × ℕ),
    acc.1.length = 16 → (∀ w ∈ acc.1, 0 ≤ w ∧ w ≤ 1) →
    (hihatExtra s n acc).1.length = 16 ∧
      ∀ w ∈ (hihatExtra s n acc).1, 0 ≤ w ∧ w ≤ 1 := by
  intro n
  induction n with
  | zero => intro acc h1 h2; exact ⟨h1, h2⟩
  | succ n ih =>
      intro acc h1 h2
      simp only [hihatExtra]
      apply ih
      · split
        · rw [show ((jsSet acc.1 ⌊s (acc.2+1) * 16⌋ (1/2), acc.2 + 2) :
              List ℚ × ℕ).1 = jsSet acc.1 ⌊s (acc.2+1) * 16⌋ (1/2) from rfl,
            length_jsSet]
          exact h1
        · exact h1
      · split
        · exact boundsOk_jsSet h2 (by norm_num)
        · exact h2

theorem genHihat_ok (s : ℕ → ℚ) (k0 : ℕ) :
    (genHihat s k0).1.length = 16 ∧ ∀ w ∈ (genHihat s k0).1, 0 ≤ w ∧ w ≤ 1 := by
  have h0 := hihatLoop_ok s [0,2,4,6,8,10,12,14] (List.replicate 16 0, k0)
    (by simp) boundsOk_replicate16
  simp only [genHihat]
  split
  · exact hihatExtra_ok s 3 _ h0.1 h0.2
  · exact h0

theorem genDrums_ok (s : ℕ → ℚ) (hs : ∀ i, 0 ≤ s i ∧ s i < 1) (k : ℕ) :
    DrumOk (genDrums s k).1 := by
  have hk := genKick_ok s hs k
  have hsn := genSnare_ok s hs (genKick s k).2
  have hh := genHihat_ok s (genSnare s (genKick s k).2).2
  exact ⟨⟨hk.1, hk.2.1⟩, ⟨hsn.1, hsn.2.1⟩, ⟨hh.1, hh.2⟩,
    hk.2.2, hsn.2.2.1, hsn.2.2.2⟩

/-- Claim C7: after every generateNextBar call, for every in-range draw
stream (the regime of every run whose PRNG states are nonnegative) and
every bar, the drum pattern consists of three 16-element velocity tracks
with all velocities in [0,1], kick velocity exactly 0.9 (in particular
positive) at step 0, and snare velocity exactly 0.9 at steps 4 and 12. -/
theorem generateNextBar_drums_ok (s : ℕ → ℚ) (hs : ∀ i, 0 ≤ s i ∧ s i < 1)
    (bpm lowpassFreq delayTime feedbackGain : ℚ) (scale : List ℕ) (keyRootFreq : ℝ)
    (progressionTemplate : List ℕ) (progressionIndex : ℕ)
    (currentScaleNotes : List ℤ) (barCount : ℕ) (prevPadFrequencies : List ℝ)
    (prevAtmo : Option Note) :
    DrumOk (genNextBarCore s bpm lowpassFreq delayTime feedbackGain scale
      keyRootFreq progressionTemplate progressionIndex currentScaleNotes barCount
      prevPadFrequencies prevAtmo).currentDrumPattern :=
  genDrums_ok s hs _

theorem generateNextBar_drums_ok_witness :
    DrumOk (genNextBarCore (fun _ => 1/2) 70 3500 (3/7) (7/20) [0,2,4,5,7,9,11]
      220 [0,5,3,4] 0 [] 0 [] none).currentDrumPattern :=
  generateNextBar_drums_ok (fun _ => 1/2) (fun _ => ⟨by norm_num, by norm_num⟩)
    70 3500 (3/7) (7/20) [0,2,4,5,7,9,11] 220 [0,5,3,4] 0 [] 0 [] none

/-! ### Voice leading (claim C10) -/

theorem pickClosest_perm {α β : Type} [LinearOrder β] (d : α → β) :
    ∀ (t : α) (ts : List α),
      ((pickClosest d t ts).1 :: (pickClosest d t ts).2).Perm (t :: ts)
  | _, [] => by simp [pickClosest]
  | t, u :: us => by
      simp only [pickClosest]
      split
      · exact List.Perm.refl _
      · exact (List.Perm.swap t (pickClosest d u us).1 (pickClosest d u us).2).trans
          ((pickClosest_perm d u us).cons t)

theorem voiceLeadLoop_perm {α β : Type} [LinearOrder β] (d : α → α → β) :
    ∀ (prev avail : List α), (voiceLeadLoop d prev avail).Perm avail
  | [], _ => List.Perm.refl _
  | _ :: _, [] => List.Perm.refl _
  | p :: ps, t :: ts => by
      simp only [voiceLeadLoop]
      exact ((voiceLeadLoop_perm d ps _).cons _).trans (pickClosest_perm (d p) t ts)

/-- Claim C10: voiceLeadPads returns exactly the target frequencies
sorted ascending - the same multiset as the target argument - for every
distance function, so its result is completely independent of the
previous bar frequencies; when either list is empty the target list is
returned unchanged. -/
theorem voiceLeadPads_spec {α β : Type} [LinearOrder α] [LinearOrder β]
    (d : α → α → β) (targetChordFreqs prevChordFreqs : List α) :
    voiceLeadPads d targetChordFreqs prevChordFreqs
      = if prevChordFreqs.length = 0 ∨ targetChordFreqs.length = 0
        then targetChordFreqs
        else List.insertionSort (fun a b => a ≤ b) targetChordFreqs := by
  unfold voiceLeadPads
  split
  · rfl
  · exact List.eq_of_perm_of_sorted
      (((List.perm_insertionSort _ _).trans
        (voiceLeadLoop_perm d _ _)).trans (List.perm_insertionSort _ _).symm)
      (List.sorted_insertionSort _ _) (List.sorted_insertionSort _ _)

/-! ### Progression cycling (claims C3 and C1): projections of one
generateNextBar call, provable by definitional unfolding. -/

theorem generateNextBar_progressionTemplate (s : ℕ → ℚ) (c : ComposerState) :
    (generateNextBar s c).progressionTemplate = c.progressionTemplate := rfl

theorem generateNextBar_barCount (s : ℕ → ℚ) (c : ComposerState) :
    (generateNextBar s c).barCount = c.barCount + 1 := rfl

theorem generateNextBar_progressionIndex (s : ℕ → ℚ) (c : ComposerState) :
    (generateNextBar s c).progressionIndex
      = if 0 < c.barCount then (c.progressionIndex + 1) % c.progressionTemplate.length
        else c.progressionIndex := rfl

theorem generateNextBar_currentScaleDegree (s : ℕ → ℚ) (c : ComposerState) :
    (generateNextBar s c).currentScaleDegree
      = c.progressionTemplate.getD ((generateNextBar s c).progressionIndex) 0 := rfl

theorem runComposer_progressionTemplate (seed : ℤ) (c0 : ComposerState) :
    ∀ n, (runComposer seed c0 n).progressionTemplate = genNewTemplate seed
  | 0 => rfl
  | n + 1 => by
      show (generateNextBar _ (runComposer seed c0 n)).progressionTemplate = _
      rw [generateNextBar_progressionTemplate,
        runComposer_progressionTemplate seed c0 n]

theorem runComposer_barCount (seed : ℤ) (c0 : ComposerState) :
    ∀ n, (runComposer seed c0 n).barCount = n
  | 0 => rfl
  | n + 1 => by
      show (generateNextBar _ (runComposer seed c0 n)).barCount = n + 1
      rw [generateNextBar_barCount, runComposer_barCount seed c0 n]

theorem runComposer_progressionIndex (seed : ℤ) (c0 : ComposerState) :
    ∀ n, (runComposer seed c0 (n + 1)).progressionIndex
      = n % (genNewTemplate seed).length
  | 0 => by
      show (generateNextBar _ (runComposer seed c0 0)).progressionIndex = _
      rw [generateNextBar_progressionIndex]
      have hb : (runComposer seed c0 0).barCount = 0 := rfl
      have hi : (runComposer seed c0 0).progressionIndex = 0 := rfl
      rw [hb, hi, Nat.zero_mod]
      simp
  | n + 1 => by
      show (generateNextBar _ (runComposer seed c0 (n + 1))).progressionIndex = _
      rw [generateNextBar_progressionIndex, runComposer_barCount,
        runComposer_progressionTemplate, runComposer_progressionIndex seed c0 n]
      rw [if_pos (Nat.succ_pos n)]
      exact Nat.mod_add_mod n (genNewTemplate seed).length 1

theorem runComposer_degree (seed : ℤ) (c0 : ComposerState) (n : ℕ) :
    (runComposer seed c0 (n + 1)).currentScaleDegree
      = (genNewTemplate seed).getD (n % (genNewTemplate seed).length) 0 := by
  show (generateNextBar _ (runComposer seed c0 n)).currentScaleDegree = _
  rw [generateNextBar_currentScaleDegree, runComposer_progressionTemplate]
  have : (generateNextBar (fun m =>
      seededRandom seed (((runComposer seed c0 n).barCount : ℤ) + 0) m)
      (runComposer seed c0 n)).progressionIndex
      = (runComposer seed c0 (n + 1)).progressionIndex := rfl
  rw [this, runComposer_progressionIndex]

/-- Claim C3: for every seed, after generateNewPatterns the scale degree
sequence of successive bars is periodic with period the progression
template length: the degree used at bar k equals the degree used at bar
k + templateLength (bar j is the state after the (j+1)-st
generateNextBar call; the template never changes between bars). -/
theorem progression_cycles (seed : ℤ) (c0 : ComposerState) (k : ℕ) :
    (runComposer seed c0
        (k + (runComposer seed c0 0).progressionTemplate.length + 1)).currentScaleDegree
      = (runComposer seed c0 (k + 1)).currentScaleDegree := by
  have hT : (runComposer seed c0 0).progressionTemplate = genNewTemplate seed := rfl
  rw [hT, runComposer_degree, runComposer_degree, Nat.add_mod_right]

/-! ### Determinism (claim C1) -/

theorem stepBar_genNew (seed : ℤ) (c : ComposerState) :
    stepBar seed (generateNewPatterns seed c)
      = genNextBarCore (fun n => seededRandom seed ((((0 : ℕ) : ℤ)) + 0) n)
          (genNewBpm seed) (genNewLowpass seed) (genNewDelayTime seed)
          (genNewFeedback seed) (genNewScale seed) (genNewKeyRoot seed)
          (genNewTemplate seed) 0 (genNewScaleNotes seed) 0 []
          c.currentAtmosphereNote := rfl

/-- Claim C1: for every integer seed, two runs that both perform
generateNewPatterns followed by N scheduler-driven generateNextBar
calls produce identical sequences of key root frequency, scale
intervals, tempo, chord root frequencies, voicing intervals and 16-step
drum patterns - even from different pre-existing engine states, as long
as both start with no pending drone (true of independent fresh engines,
whose currentAtmosphereNote field initializes to null). -/
theorem determinism (seed : ℤ) (numBars : ℕ) (ca cb : ComposerState)
    (ha : ca.currentAtmosphereNote = none) (hb : cb.currentAtmosphereNote = none) :
    composerTrace seed ca numBars = composerTrace seed cb numBars := by
  have key : ∀ j, runComposer seed ca (j + 1) = runComposer seed cb (j + 1) := by
    intro j
    induction j with
    | zero =>
        show stepBar seed (generateNewPatterns seed ca)
            = stepBar seed (generateNewPatterns seed cb)
        rw [stepBar_genNew, stepBar_genNew, ha, hb]
    | succ n ih =>
        show stepBar seed (runComposer seed ca (n + 1))
            = stepBar seed (runComposer seed cb (n + 1))
        rw [ih]
  unfold composerTrace
  apply List.map_congr_left
  intro j _
  rw [key j]

theorem determinism_witness :
    composerTrace 42 freshComposer 2 = composerTrace 42 composerJunk 2 :=
  determinism 42 2 freshComposer composerJunk rfl rfl

end RatKernelEval

end PiedPiper
